import Mathlib

/-!
Verification of the `notify` package (schema-versioned notifications over an
SQS-like queue) against its specification.

The repository contains two variants of the package source:
* `part_001` — the synchronous variant: `handle` processes only the first
  message of a batch and returns a `(Notification, error)` pair.
* `part_000` — the channel variant: `handle` iterates over every message of
  the batch and sends each result on an internal channel.
Both share identical `AddSchema`, `Send` and per-message decode code.

Modelling conventions (a shallow embedding):
* Go `interface{}` values that flow through `encoding/json` are modelled by
  the inductive `Json` of JSON-equivalent values.  JSON arrays and
  non-integral number literals are omitted: no code path of this library
  constructs or inspects them.  Numbers carry unbounded integers, and the
  float64 coercion that `json.Unmarshal` applies when its target is an
  `interface{}` — integers keep at most 53 significant bits — is modelled
  explicitly (`f64Json`, used by `jsonUnmarshalGeneric` in `Send`).
* Byte-level wire syntax is abstracted by an executable injective encoding
  `jsonMarshal : Json → String` with computable partial inverse
  `jsonUnmarshal : String → Option Json` (proved to invert the encoding);
  strings outside the image of `jsonMarshal` model bytes that are not valid
  JSON.  Likewise `base64Encode`/`base64Decode` model
  `base64.StdEncoding.EncodeToString`/`DecodeString` as an injective framing
  with a computable partial inverse; strings outside the image model invalid
  base64 input.  No claim depends on which concrete byte strings are valid
  JSON or valid base64, only on the composition of the two layers.
* Go maps are modelled by first-match association lists together with the
  no-duplicate-key invariant; `time.Time` values are carried as opaque
  RFC3339 strings (format validation is not in scope of any claim).
* Calls into the SQS transport are modelled by returning the list of
  invocations (message bodies sent, receipt handles deleted) alongside the
  result, with the transport's responses supplied as function arguments.
-/

namespace Notify

/-- JSON-equivalent values, the model of the Go `interface{}` values produced
and consumed by `encoding/json` in this package. -/
inductive Json where
  | null : Json
  | bool (b : Bool) : Json
  | num (n : Int) : Json
  | str (s : String) : Json
  | obj (fields : List (String × Json)) : Json
deriving Repr

/-! ### The wire codec

`jsonMarshal`/`jsonUnmarshal` model `json.Marshal` and the exact parse of
`json.Unmarshal`.  The concrete character-level syntax is a length-prefixed
code chosen for provability; it is injective and `jsonUnmarshal` is its
computable partial inverse, which is all that the library's behaviour
depends on. -/

/-- Unary encoding of a natural number (used as a length prefix). -/
def encN (n : Nat) : List Char := List.replicate n '#'

/-- Length-prefixed encoding of a string. -/
def encStr (s : String) : List Char := encN s.length ++ ':' :: s.data

/-- Binary digits of a natural number, least significant first (fuel-based
so that the recursion on `n / 2` is structural; fuel `n` always suffices). -/
def encBits : Nat → Nat → List Char
  | 0, _ => []
  | f + 1, n => if n = 0 then [] else (if n % 2 = 1 then '1' else '0') :: encBits f (n / 2)

/-- Positional (binary) encoding of a natural number. -/
def encNatBin (n : Nat) : List Char := if n = 0 then ['0'] else encBits n n

/-- Sign-and-magnitude encoding of an integer: sign character, binary
digits of the magnitude, terminator. -/
def encInt (i : Int) : List Char :=
  (if i < 0 then '-' else '+') :: (encNatBin i.natAbs ++ [':'])

mutual
/-- Encoding of a `Json` value to characters (the model of `json.Marshal`'s
output bytes). -/
def encJ : Json → List Char
  | .null => ['n']
  | .bool true => ['t']
  | .bool false => ['f']
  | .num i => 'i' :: encInt i
  | .str s => 's' :: encStr s
  | .obj kvs => 'o' :: (encFields kvs ++ ['e'])

/-- Encoding of an object's field list. -/
def encFields : List (String × Json) → List Char
  | [] => []
  | (k, v) :: rest => 'k' :: (encStr k ++ encJ v ++ encFields rest)
end

/-- Count the leading `'#'` characters (decode the unary length prefix). -/
def decN : List Char → Nat × List Char
  | [] => (0, [])
  | c :: r => if c = '#' then let p := decN r; (p.1 + 1, p.2) else (0, c :: r)

/-- Decode a length-prefixed string. -/
def decStr (cs : List Char) : Option (String × List Char) :=
  match decN cs with
  | (n, ':' :: r) => if n ≤ r.length then some (⟨r.take n⟩, r.drop n) else none
  | _ => none

/-- Read binary digits (least significant first) off the front of the
input. -/
def decBits : List Char → Nat × List Char
  | '0' :: r => let p := decBits r; (2 * p.1, p.2)
  | '1' :: r => let p := decBits r; (2 * p.1 + 1, p.2)
  | cs => (0, cs)

/-- Decode a sign-and-magnitude integer. -/
def decInt (cs : List Char) : Option (Int × List Char) :=
  match cs with
  | '+' :: r =>
    (match decBits r with
     | (n, ':' :: r') => some ((n : Int), r')
     | _ => none)
  | '-' :: r =>
    (match decBits r with
     | (n, ':' :: r') => some (-(n : Int), r')
     | _ => none)
  | _ => none

mutual
/-- Fueled decoder for `Json` values; the partial inverse of `encJ`. -/
def decJF : Nat → List Char → Option (Json × List Char)
  | 0, _ => none
  | f + 1, cs =>
    match cs with
    | 'n' :: r => some (.null, r)
    | 't' :: r => some (.bool true, r)
    | 'f' :: r => some (.bool false, r)
    | 'i' :: r => (decInt r).map (fun p => (.num p.1, p.2))
    | 's' :: r => (decStr r).map (fun p => (.str p.1, p.2))
    | 'o' :: r => (decFieldsF f r).map (fun p => (.obj p.1, p.2))
    | _ => none

/-- Fueled decoder for an object's field list (terminated by `'e'`). -/
def decFieldsF : Nat → List Char → Option (List (String × Json) × List Char)
  | 0, _ => none
  | f + 1, cs =>
    match cs with
    | 'e' :: r => some ([], r)
    | 'k' :: r =>
      (decStr r).bind (fun pk =>
        (decJF f pk.2).bind (fun pv =>
          (decFieldsF f pv.2).map (fun pr => ((pk.1, pv.1) :: pr.1, pr.2))))
    | _ => none
end

/-- Model of `json.Marshal` on a generic value. -/
def jsonMarshal (j : Json) : String := ⟨encJ j⟩

/-- The exact-parse core of `json.Unmarshal`: `none` models an
unmarshalling error (bytes that are not valid JSON).  Used directly where
the decode target is typed — there integer fields are parsed exactly from
their digits.  When the target is an `interface{}`, numbers additionally
pass through float64; that is `jsonUnmarshalGeneric` below. -/
def jsonUnmarshal (s : String) : Option Json :=
  match decJF (s.data.length + 1) s.data with
  | some (j, []) => some j
  | _ => none

/-- Binary length of a natural number (fuel-based so that the recursion on
`n / 2` is structural; fuel `n` always suffices). -/
def bitLenAux : Nat → Nat → Nat
  | 0, _ => 0
  | f + 1, n => if n = 0 then 0 else bitLenAux f (n / 2) + 1

def bitLen (n : Nat) : Nat := bitLenAux n n

/-- Round a natural number to the nearest value with a 53-bit significand,
ties to even: the value an integer takes when `encoding/json` parses it
into a `float64`. -/
def f64RoundNat (a : Nat) : Nat :=
  if a ≤ 2 ^ 53 then a
  else
    let e := bitLen a - 53
    let p := 2 ^ e
    let q := a / p
    let r := a % p
    let h := p / 2
    let q2 := if h < r then q + 1 else if r < h then q else if q % 2 = 1 then q + 1 else q
    q2 * p

/-- Float64 rounding of an integer (sign-symmetric, as in IEEE 754). -/
def f64RoundInt (i : Int) : Int :=
  if i < 0 then -(f64RoundNat i.natAbs : Int) else (f64RoundNat i.natAbs : Int)

mutual
/-- The coercion `json.Unmarshal` applies to every number when decoding
into an `interface{}`: numbers are stored as `float64`, so integers keep at
most 53 significant bits. -/
def f64Json : Json → Json
  | .null => .null
  | .bool b => .bool b
  | .num n => .num (f64RoundInt n)
  | .str s => .str s
  | .obj kvs => .obj (f64Fields kvs)

/-- Float64 coercion of an object's fields. -/
def f64Fields : List (String × Json) → List (String × Json)
  | [] => []
  | (k, v) :: rest => (k, f64Json v) :: f64Fields rest
end

/-- Model of `json.Unmarshal` into a generic `interface{}` value: like
`jsonUnmarshal`, but numbers are stored as `float64`, so integers beyond 53
bits of precision are rounded.  (Go re-marshals such a float64 as its exact
integer text for values below 1e21, and a later decode into an `int64`
exemplar field of a value at or beyond 2^63 would overflow; both corners
lie outside every claim's scope, and the model's integers are unbounded.) -/
def jsonUnmarshalGeneric (s : String) : Option Json := (jsonUnmarshal s).map f64Json

mutual
/-- Cost of a `Json` value: a fuel bound for `decJF`. -/
def sizeJ : Json → Nat
  | .null => 1
  | .bool _ => 1
  | .num _ => 1
  | .str _ => 1
  | .obj kvs => sizeFs kvs + 1

/-- Cost of a field list: a fuel bound for `decFieldsF`. -/
def sizeFs : List (String × Json) → Nat
  | [] => 1
  | (_, v) :: rest => sizeJ v + sizeFs rest + 1
end

/-! ### The base64 layer

`base64Encode`/`base64Decode` model `base64.StdEncoding.EncodeToString` and
`DecodeString`.  As with the JSON codec, the character-level alphabet is
abstracted: the encoding is an injective framing with a computable partial
inverse, and strings outside its image model input on which `DecodeString`
fails.  No claim depends on which concrete strings are valid base64. -/

/-- Errors produced by the package and its transport, by provenance.  Go
errors are opaque values; the constructors record which operation made
them (`fmt.Errorf` for the schema errors, `encoding/json` and
`encoding/base64` failures, and errors returned by the SQS client). -/
inductive GoErr where
  | duplicateSchema (t : String) (v : Int)
  | schemaNotFound (t : String) (v : Int)
  | jsonError
  | base64Error
  | transport (msg : String)
deriving DecidableEq, Repr

/-- Model of `base64.StdEncoding.EncodeToString` applied to marshalled
payload bytes. -/
def base64Encode (s : String) : String := ⟨'@' :: s.data⟩

/-- Model of `base64.StdEncoding.DecodeString`; fails on strings that are
not the encoding of any byte string. -/
def base64Decode (s : String) : Except GoErr String :=
  match s.data with
  | '@' :: r => .ok ⟨r⟩
  | _ => .error .base64Error

/-! ### Schemas, shapes and the registry

A Go schema exemplar (`Schema.Schema interface{}`) matters to the library
only through its reflected type (`reflect.TypeOf` at decode time), so it is
modelled by the `Shape` of that type: record types with string, integer and
boolean fields, nested arbitrarily.  Slice-typed and float-typed exemplar
fields are omitted: no claim involves them. -/

/-- The shape of a schema exemplar's type. -/
inductive Shape where
  | sstr : Shape
  | sint : Shape
  | sbool : Shape
  | sobj (fields : List (String × Shape)) : Shape
deriving Repr

/-- Model of the Go `Schema` record: `Type`, `Version`, and the exemplar
(kept as its shape). -/
structure Schema where
  typ : String
  version : Int
  schema : Shape
deriving Repr

/-- Model of `map[string]map[int]Schema`: an association list keyed by the
(type, version) pair, first match wins, kept duplicate-free by `AddSchema`. -/
abbrev Registry := List ((String × Int) × Schema)

/-- Model of the nested-map lookup `n.Schemas[type][version]`. -/
def resolve (reg : Registry) (t : String) (v : Int) : Option Schema :=
  match reg with
  | [] => none
  | e :: rest => if e.1.1 == t && e.1.2 == v then some e.2 else resolve rest t v

/-- No (type, version) pair occurs twice in the registry. -/
def noDupKeys : Registry → Bool
  | [] => true
  | e :: rest =>
    !(rest.any (fun e2 => e2.1.1 == e.1.1 && e2.1.2 == e.1.2)) && noDupKeys rest

/-- Model of `Notifications.AddSchema` (identical in both source variants):
reject an already-registered (type, version) pair, otherwise insert.
Returns the result together with the registry after the call. -/
def addSchema (reg : Registry) (s : Schema) : Except GoErr Unit × Registry :=
  match resolve reg s.typ s.version with
  | some _ => (.error (.duplicateSchema s.typ s.version), reg)
  | none => (.ok (), ((s.typ, s.version), s) :: reg)

/-! ### `encoding/json` field handling -/

/-- Case-insensitive string comparison, the match `encoding/json` applies
between JSON object keys and struct field tags. -/
def lowerEq (a b : String) : Bool :=
  a.data.map Char.toLower == b.data.map Char.toLower

/-- Field lookup as `encoding/json` performs it when filling a struct: keys
are matched case-insensitively against the field's tag and, on duplicate
keys, the last occurrence wins. -/
def getFieldCI (kvs : List (String × Json)) (k : String) : Option Json :=
  match kvs with
  | [] => none
  | e :: rest =>
    match getFieldCI rest k with
    | some v => some v
    | none => if lowerEq e.1 k then some e.2 else none

/-- Does some key of the list match `k` case-insensitively? -/
def hasKeyCI (l : List (String × α)) (k : String) : Bool :=
  l.any (fun e => lowerEq e.1 k)

mutual
/-- The marshal image of the zero value of a shape (`reflect.New` yields a
zeroed instance; fields that the payload does not mention keep it). -/
def zeroOfShape : Shape → Json
  | .sstr => .str ""
  | .sint => .num 0
  | .sbool => .bool false
  | .sobj fs => .obj (zeroFields fs)

/-- Zero values of a record shape's fields. -/
def zeroFields : List (String × Shape) → List (String × Json)
  | [] => []
  | (n, sh) :: rest => (n, zeroOfShape sh) :: zeroFields rest
end

mutual
/-- Model of `json.Unmarshal(data, re)` where `re = reflect.New(T)` for the
exemplar type `T` of shape `sh`, applied to the generic value of `data`:
type-checks and coerces the value to the shape.  JSON `null` leaves the
freshly zeroed instance untouched; unknown object keys are dropped; a JSON
value of the wrong type for a field is an `UnmarshalTypeError`. -/
def unmarshalShape (sh : Shape) (j : Json) : Except GoErr Json :=
  match j with
  | .null => .ok (zeroOfShape sh)
  | .str s =>
    match sh with
    | .sstr => .ok (.str s)
    | _ => .error .jsonError
  | .num i =>
    match sh with
    | .sint => .ok (.num i)
    | _ => .error .jsonError
  | .bool b =>
    match sh with
    | .sbool => .ok (.bool b)
    | _ => .error .jsonError
  | .obj kvs =>
    match sh with
    | .sobj fs =>
      (match coerceFields fs kvs with
       | .ok l => .ok (.obj l)
       | .error e => .error e)
    | _ => .error .jsonError

/-- Decode each field of a record shape from the object's key/value list
(absent keys keep the zero value). -/
def coerceFields : List (String × Shape) → List (String × Json) → Except GoErr (List (String × Json))
  | [], _ => .ok []
  | (n, sh) :: fsRest, kvs =>
    match (match getFieldCI kvs n with
           | some jv => unmarshalShape sh jv
           | none => .ok (zeroOfShape sh)) with
    | .error e => .error e
    | .ok v =>
      match coerceFields fsRest kvs with
      | .error e => .error e
      | .ok rest => .ok ((n, v) :: rest)
end

mutual
/-- `v` is the marshal image of a Go value of a type with shape `sh`
("a value of the exemplar's shape"): objects carry exactly the shape's
fields, in the shape's (struct) order. -/
def isShapedValue : Shape → Json → Bool
  | .sstr, .str _ => true
  | .sint, .num _ => true
  | .sbool, .bool _ => true
  | .sobj fs, .obj kvs => shapedFields fs kvs
  | _, _ => false

/-- Pointwise shape conformance of an object's fields. -/
def shapedFields : List (String × Shape) → List (String × Json) → Bool
  | [], [] => true
  | (n, sh) :: fs, (n', v) :: kvs => n == n' && isShapedValue sh v && shapedFields fs kvs
  | _, _ => false
end

mutual
/-- The shape's field names are case-insensitively distinct at every level,
as the json tags of a Go struct ordinarily are.  (This brackets the corner
in which two fields of one struct differ only by letter case.) -/
def shapeOK : Shape → Bool
  | .sobj fs => namesOK fs
  | _ => true

/-- Distinctness and recursive well-formedness of a field list. -/
def namesOK : List (String × Shape) → Bool
  | [] => true
  | (n, sh) :: rest => !(hasKeyCI rest n) && shapeOK sh && namesOK rest
end

/-! ### Notifications, envelopes and the facade operations -/

/-- Model of the Go `Notification` record.  `time.Time` values are carried
as their RFC3339 text (format validation is abstracted); `data` is the
`interface{}` payload, with `.null` standing for the nil interface. -/
structure Notification where
  time : String := ""
  typ : String := ""
  version : Int := 0
  data : Json := .null
deriving Repr

/-- String-typed field of the envelope struct: absent and `null` keys leave
the zero value, a non-string value is an `UnmarshalTypeError`. -/
def strField (kvs : List (String × Json)) (k : String) : Except GoErr String :=
  match getFieldCI kvs k with
  | none => .ok ""
  | some .null => .ok ""
  | some (.str s) => .ok s
  | some _ => .error .jsonError

/-- Integer-typed field of the envelope struct. -/
def intField (kvs : List (String × Json)) (k : String) : Except GoErr Int :=
  match getFieldCI kvs k with
  | none => .ok 0
  | some .null => .ok 0
  | some (.num i) => .ok i
  | some _ => .error .jsonError

/-- Model of `json.Unmarshal([]byte(*message.Body), &notification)` applied
to the generic value of the body: fill the `Notification` struct from the
envelope object.  The `notification` payload field is an `interface{}`, so
any JSON value is accepted there. -/
def unmarshalNotification (j : Json) : Except GoErr Notification :=
  match j with
  | .null => .ok {}
  | .obj kvs =>
    (match strField kvs "time" with
     | .error e => .error e
     | .ok tm =>
       match strField kvs "type" with
       | .error e => .error e
       | .ok ty =>
         match intField kvs "version" with
         | .error e => .error e
         | .ok ver =>
           .ok { time := tm, typ := ty, version := ver,
                 data := (getFieldCI kvs "notification").getD .null })
  | _ => .error .jsonError

/-- An SQS message as the receive path sees it: the dereferenced body and
receipt handle. -/
structure Message where
  body : String
  receiptHandle : String

/-- The envelope body `Send` marshals and hands to `SendMessage`:
`notification.Time` has been stamped with `now`, and `notification.Data`
replaced by the base64 of the re-marshalled generic payload `sc`
(`scj := json.Marshal(sc)`; `notification.Data = base64(scj)`). -/
def sendBody (notification : Notification) (now : String) (sc : Json) : String :=
  jsonMarshal (.obj
    [("time", .str now),
     ("type", .str notification.typ),
     ("version", .num notification.version),
     ("notification", .str (base64Encode (jsonMarshal sc)))])

/-- Model of `Notifications.Send` (textually identical in both variants).
`now` is the value of `time.Now()`; `sendResp` is the result the SQS
`SendMessage` call would return.  Returns the Go result, the list of bodies
handed to `SendMessage`, and the registry after the call. -/
def send (reg : Registry) (notification : Notification) (now : String)
    (sendResp : Except GoErr Unit) : Except GoErr Unit × List String × Registry :=
  match resolve reg notification.typ notification.version with
  | none => (.error (.schemaNotFound notification.typ notification.version), [], reg)
  | some _schema =>
    -- nd := json.Marshal(notification.Data);
    -- sc := schema.Schema; json.Unmarshal(nd, &sc): the interface value sc
    -- holds a NON-POINTER exemplar, so encoding/json discards it and stores
    -- the GENERIC value of nd — the exemplar's shape is not applied here,
    -- and every number in the generic value is a float64 (53-bit precision).
    match jsonUnmarshalGeneric (jsonMarshal notification.data) with
    | none => (.error .jsonError, [], reg)
    | some sc =>
      match sendResp with
      | .error e => (.error e, [sendBody notification now sc], reg)
      | .ok _ => (.ok (), [sendBody notification now sc], reg)

/-- Result of handling one message. -/
inductive HandleResult where
  | panic : HandleResult
  | fail (e : GoErr) : HandleResult
  | ok (n : Notification) : HandleResult

/-- The per-message decode pipeline, lines shared verbatim by both `handle`
variants: unmarshal the envelope, resolve the schema, assert the payload
field to a string (`notification.Data.(string)` — a non-string PANICS),
base64-decode it, and unmarshal the bytes into a fresh instance of the
exemplar's type. -/
def decodeMessage (reg : Registry) (m : Message) : HandleResult :=
  match jsonUnmarshal m.body with
  | none => .fail .jsonError
  | some bodyJson =>
    match unmarshalNotification bodyJson with
    | .error e => .fail e
    | .ok notification =>
      match resolve reg notification.typ notification.version with
      | none => .fail (.schemaNotFound notification.typ notification.version)
      | some schema =>
        match notification.data with
        | .str dataStr =>
          (match base64Decode dataStr with
           | .error e => .fail e
           | .ok bytes =>
             match jsonUnmarshal bytes with
             | none => .fail .jsonError
             | some payload =>
               match unmarshalShape schema.schema payload with
               | .error e => .fail e
               -- notification.Data = re: a freshly allocated instance
               | .ok re => .ok { notification with data := re })
        | _ => .panic

/-- Model of the synchronous `handle` (variant `part_001`): process only
`Messages[0]`, delete it on successful decode, return one result.
`deleteResp` gives the transport's answer to `DeleteMessage` per receipt
handle.  Returns the result, the receipt handles passed to `DeleteMessage`,
and the registry after the call.  (On an empty batch `Messages[0]` would
panic; `receive` only calls `handle` with a non-empty batch.) -/
def handleSync (reg : Registry) (msgs : List Message)
    (deleteResp : String → Except GoErr Unit) : HandleResult × List String × Registry :=
  match msgs with
  | [] => (.panic, [], reg)
  | m :: _ =>
    match decodeMessage reg m with
    | .panic => (.panic, [], reg)
    | .fail e => (.fail e, [], reg)
    | .ok notification =>
      match deleteResp m.receiptHandle with
      | .error e => (.fail e, [m.receiptHandle], reg)
      | .ok _ => (.ok notification, [m.receiptHandle], reg)

/-- Observable behaviour of the channel-based `handle` (variant `part_000`):
the values sent on the channel in order, whether the goroutine died in a
panic (truncating the emissions), the receipt handles deleted, and the
registry after the call. -/
structure ChanOut where
  emits : List (Except GoErr Notification)
  panicked : Bool
  deletes : List String
  schemas : Registry
deriving Repr

/-- Model of the channel-based `handle` (variant `part_000`): iterate over
EVERY message of the batch, sending each decoded notification or error on
the channel, deleting each successfully decoded message. -/
def handleChan (reg : Registry) (msgs : List Message)
    (deleteResp : String → Except GoErr Unit) : ChanOut :=
  match msgs with
  | [] => ⟨[], false, [], reg⟩
  | m :: rest =>
    match decodeMessage reg m with
    | .panic => ⟨[], true, [], reg⟩
    | .fail e =>
      let r := handleChan reg rest deleteResp
      ⟨.error e :: r.emits, r.panicked, r.deletes, reg⟩
    | .ok notification =>
      match deleteResp m.receiptHandle with
      | .error e =>
        let r := handleChan reg rest deleteResp
        ⟨.error e :: r.emits, r.panicked, m.receiptHandle :: r.deletes, reg⟩
      | .ok _ =>
        let r := handleChan reg rest deleteResp
        ⟨.ok notification :: r.emits, r.panicked, m.receiptHandle :: r.deletes, reg⟩

/-! ### Concrete fixtures (mirroring the repository's test data) -/

/-- The shape of the test exemplar `TestData{String string; Int int; Bool bool}`. -/
def testShape : Shape := .sobj [("String", .sstr), ("Int", .sint), ("Bool", .sbool)]

/-- The test schema `{Type: "testing", Version: 1, Schema: TestData{}}`. -/
def testSchema : Schema := { typ := "testing", version := 1, schema := testShape }

/-- A registry holding exactly the test schema. -/
def testReg : Registry := [(("testing", 1), testSchema)]

/-- The payload value `TestData{String: "string", Int: 1, Bool: true}`. -/
def testData : Json := .obj [("String", .str "string"), ("Int", .num 1), ("Bool", .bool true)]

/-- A schema for the same type at a different version. -/
def v2Schema : Schema := { typ := "testing", version := 2, schema := testShape }

/-- A well-formed envelope body for (testing, 1) carrying `testData`. -/
def goodBody : String := jsonMarshal (.obj
  [("time", .str "T1"), ("type", .str "testing"), ("version", .num 1),
   ("notification", .str (base64Encode (jsonMarshal testData)))])

/-- Two copies of the good message with distinct receipt handles. -/
def msgA : Message := ⟨goodBody, "rh-A"⟩

def msgB : Message := ⟨goodBody, "rh-B"⟩

/-- The notification `msgA` decodes to. -/
def decodedA : Notification :=
  { time := "T1", typ := "testing", version := 1, data := testData }

/-- An envelope naming a type with no registered schema. -/
def unknownTypeMsg : Message :=
  ⟨jsonMarshal (.obj [("type", .str "nope"), ("version", .num 1),
    ("notification", .str "x")]), "rh-U"⟩

/-- A JSON-valid envelope whose payload field is a number, not a string. -/
def badPayloadMsg : Message :=
  ⟨jsonMarshal (.obj [("type", .str "testing"), ("version", .num 1),
    ("notification", .num 7)]), "rh-P"⟩

/-- A schema whose exemplar is `struct{A int}`. -/
def abShape : Shape := .sobj [("A", .sint)]

def abSchema : Schema := { typ := "ab", version := 1, schema := abShape }

def abReg : Registry := [(("ab", 1), abSchema)]

/-- A payload carrying the exemplar's field `A` plus a field `B` that the
exemplar does not have. -/
def abPayload : Json := .obj [("A", .num 1), ("B", .num 2)]

/-- A payload of the exemplar shape `struct{A int}` whose int value,
2^53 + 1, is not exactly representable in a float64. -/
def bigPayload : Json := .obj [("A", .num 9007199254740993)]

/-- Observer: the generic value of the inner (base64) payload of a
transmitted envelope body, read back the way `handle` reads it. -/
def innerPayload (body : String) : Option Json :=
  match jsonUnmarshal body with
  | some (.obj kvs) =>
    (match getFieldCI kvs "notification" with
     | some (.str p) =>
       (match base64Decode p with
        | .ok bytes => jsonUnmarshal bytes
        | .error _ => none)
     | _ => none)
  | _ => none

/-! ### Round-trip of the wire codec -/

theorem take_len_append (l₁ l₂ : List α) : (l₁ ++ l₂).take l₁.length = l₁ := by
  induction l₁ with
  | nil => rfl
  | cons a t ih => simp [List.take, ih]

theorem drop_len_append (l₁ l₂ : List α) : (l₁ ++ l₂).drop l₁.length = l₂ := by
  induction l₁ with
  | nil => rfl
  | cons a t ih => simp [List.drop, ih]

theorem decN_encN (n : Nat) (c : Char) (r : List Char) (hc : c ≠ '#') :
    decN (encN n ++ c :: r) = (n, c :: r) := by
  induction n with
  | zero =>
    simp only [encN, List.replicate, List.nil_append]
    rw [decN]
    simp [hc]
  | succ m ih =>
    simp only [encN, List.replicate, List.cons_append]
    rw [decN]
    simp only [if_true, reduceIte]
    rw [show List.replicate m '#' = encN m from rfl, ih]

theorem decStr_encStr (s : String) (r : List Char) :
    decStr (encStr s ++ r) = some (s, r) := by
  have h1 : encStr s ++ r = encN s.length ++ ':' :: (s.data ++ r) := by
    simp [encStr]
  rw [h1, decStr, decN_encN s.length ':' (s.data ++ r) (by decide)]
  have hle : s.length ≤ (s.data ++ r).length := by
    rw [List.length_append]
    exact Nat.le_add_right _ _
  show (if s.length ≤ (s.data ++ r).length then
      some ((⟨(s.data ++ r).take s.length⟩ : String), (s.data ++ r).drop s.length)
    else none) = some (s, r)
  rw [if_pos hle]
  have hlen : s.length = s.data.length := rfl
  rw [hlen, take_len_append, drop_len_append]

theorem decBits_zero (r : List Char) :
    decBits ('0' :: r) = (2 * (decBits r).1, (decBits r).2) := rfl

theorem decBits_one (r : List Char) :
    decBits ('1' :: r) = (2 * (decBits r).1 + 1, (decBits r).2) := rfl

theorem decBits_encBits (f : Nat) :
    ∀ (n : Nat) (r' : List Char), n ≤ f →
      decBits (encBits f n ++ ':' :: r') = (n, ':' :: r') := by
  induction f with
  | zero =>
    intro n r' hf
    have hn : n = 0 := Nat.le_zero.mp hf
    subst hn
    rfl
  | succ g ih =>
    intro n r' hf
    by_cases h0 : n = 0
    · subst h0
      rfl
    · have hstep : encBits (g + 1) n
          = (if n % 2 = 1 then '1' else '0') :: encBits g (n / 2) := by
        rw [encBits]
        rw [if_neg h0]
      have hdiv : n / 2 ≤ g := by omega
      have ihh := ih (n / 2) r' hdiv
      by_cases hpar : n % 2 = 1
      · rw [hstep, if_pos hpar, List.cons_append, decBits_one, ihh]
        have h2 : 2 * (n / 2) + 1 = n := by omega
        rw [h2]
      · rw [hstep, if_neg hpar, List.cons_append, decBits_zero, ihh]
        have h2 : 2 * (n / 2) = n := by omega
        rw [h2]

theorem decBits_encNatBin (n : Nat) (r' : List Char) :
    decBits (encNatBin n ++ ':' :: r') = (n, ':' :: r') := by
  by_cases h0 : n = 0
  · subst h0
    rfl
  · rw [encNatBin, if_neg h0]
    exact decBits_encBits n n r' (Nat.le_refl n)

theorem decInt_encInt (i : Int) (r : List Char) :
    decInt (encInt i ++ r) = some (i, r) := by
  by_cases hneg : i < 0
  · have h1 : encInt i ++ r = '-' :: (encNatBin i.natAbs ++ ':' :: r) := by
      simp [encInt, hneg]
    rw [h1, decInt, decBits_encNatBin]
    simp only [Option.some.injEq, Prod.mk.injEq, and_true]
    omega
  · have h1 : encInt i ++ r = '+' :: (encNatBin i.natAbs ++ ':' :: r) := by
      simp [encInt, hneg]
    rw [h1, decInt, decBits_encNatBin]
    simp only [Option.some.injEq, Prod.mk.injEq, and_true]
    omega

theorem decJF_n (f : Nat) (r : List Char) :
    decJF (f + 1) ('n' :: r) = some (.null, r) := rfl

theorem decJF_t (f : Nat) (r : List Char) :
    decJF (f + 1) ('t' :: r) = some (.bool true, r) := rfl

theorem decJF_f (f : Nat) (r : List Char) :
    decJF (f + 1) ('f' :: r) = some (.bool false, r) := rfl

theorem decJF_i (f : Nat) (r : List Char) :
    decJF (f + 1) ('i' :: r) = (decInt r).map (fun p => (.num p.1, p.2)) := rfl

theorem decJF_s (f : Nat) (r : List Char) :
    decJF (f + 1) ('s' :: r) = (decStr r).map (fun p => (.str p.1, p.2)) := rfl

theorem decJF_o (f : Nat) (r : List Char) :
    decJF (f + 1) ('o' :: r) = (decFieldsF f r).map (fun p => (.obj p.1, p.2)) := rfl

theorem decFieldsF_e (f : Nat) (r : List Char) :
    decFieldsF (f + 1) ('e' :: r) = some ([], r) := rfl

theorem decFieldsF_k (f : Nat) (r : List Char) :
    decFieldsF (f + 1) ('k' :: r) =
      (decStr r).bind (fun pk =>
        (decJF f pk.2).bind (fun pv =>
          (decFieldsF f pv.2).map (fun pr => ((pk.1, pv.1) :: pr.1, pr.2)))) := rfl


mutual
theorem decJF_encJ (j : Json) (f : Nat) (r : List Char) :
    decJF (f + sizeJ j) (encJ j ++ r) = some (j, r) := by
  cases j with
  | null =>
    rw [sizeJ, encJ, List.singleton_append, decJF_n]
  | bool b =>
    cases b
    · rw [sizeJ, encJ, List.singleton_append, decJF_f]
    · rw [sizeJ, encJ, List.singleton_append, decJF_t]
  | num i =>
    rw [sizeJ, encJ, List.cons_append, decJF_i, decInt_encInt]
    rfl
  | str s =>
    rw [sizeJ, encJ, List.cons_append, decJF_s, decStr_encStr]
    rfl
  | obj kvs =>
    rw [sizeJ, encJ]
    rw [show f + (sizeFs kvs + 1) = (f + sizeFs kvs) + 1 from by omega]
    rw [show ('o' :: (encFields kvs ++ ['e'])) ++ r
        = 'o' :: (encFields kvs ++ 'e' :: r) from by simp]
    rw [decJF_o, decFieldsF_encFields kvs f r]
    rfl

theorem decFieldsF_encFields (kvs : List (String × Json)) (f : Nat) (r : List Char) :
    decFieldsF (f + sizeFs kvs) (encFields kvs ++ 'e' :: r) = some (kvs, r) := by
  cases kvs with
  | nil =>
    rw [sizeFs, encFields, List.nil_append, decFieldsF_e]
  | cons kv rest =>
    obtain ⟨k, v⟩ := kv
    rw [sizeFs, encFields]
    rw [show f + (sizeJ v + sizeFs rest + 1) = (f + sizeJ v + sizeFs rest) + 1 from by omega]
    rw [show ('k' :: (encStr k ++ encJ v ++ encFields rest)) ++ 'e' :: r
        = 'k' :: (encStr k ++ (encJ v ++ (encFields rest ++ 'e' :: r))) from by simp]
    rw [decFieldsF_k]
    rw [decStr_encStr k (encJ v ++ (encFields rest ++ 'e' :: r))]
    simp only [Option.some_bind]
    rw [show f + sizeJ v + sizeFs rest = (f + sizeFs rest) + sizeJ v from by omega]
    rw [decJF_encJ v (f + sizeFs rest) (encFields rest ++ 'e' :: r)]
    simp only [Option.some_bind]
    rw [show (f + sizeFs rest) + sizeJ v = (f + sizeJ v) + sizeFs rest from by omega]
    rw [decFieldsF_encFields rest (f + sizeJ v) r]
    rfl
end

theorem sizeJ_pos (j : Json) : 1 ≤ sizeJ j := by
  cases j <;> simp [sizeJ]

mutual
theorem sizeJ_le_encJ (j : Json) : sizeJ j ≤ (encJ j).length := by
  cases j with
  | null => rw [sizeJ, encJ]; rfl
  | bool b => cases b <;> (rw [sizeJ]; simp [encJ])
  | num i => rw [sizeJ]; simp [encJ]
  | str s => rw [sizeJ]; simp [encJ]
  | obj kvs =>
    rw [sizeJ, encJ]
    have h := sizeFs_le_encFields kvs
    simp only [List.length_cons, List.length_append, List.length_singleton]
    omega

theorem sizeFs_le_encFields (kvs : List (String × Json)) :
    sizeFs kvs ≤ (encFields kvs).length + 1 := by
  cases kvs with
  | nil => rw [sizeFs, encFields]; simp
  | cons kv rest =>
    obtain ⟨k, v⟩ := kv
    rw [sizeFs, encFields]
    have h1 := sizeJ_le_encJ v
    have h2 := sizeFs_le_encFields rest
    simp only [List.length_cons, List.length_append]
    omega
end

/-- The wire codec round-trips: unmarshalling the marshalled bytes of a
generic value recovers the value. -/
theorem jsonUnmarshal_marshal (j : Json) : jsonUnmarshal (jsonMarshal j) = some j := by
  have hdata : (jsonMarshal j).data = encJ j := rfl
  rw [jsonUnmarshal, hdata]
  have hle : sizeJ j ≤ (encJ j).length + 1 := le_trans (sizeJ_le_encJ j) (by omega)
  obtain ⟨d, hd⟩ : ∃ d, (encJ j).length + 1 = d + sizeJ j := ⟨(encJ j).length + 1 - sizeJ j, by omega⟩
  rw [hd]
  have h := decJF_encJ j d []
  rw [List.append_nil] at h
  rw [h]

theorem base64Decode_encode (s : String) : base64Decode (base64Encode s) = .ok s := by
  cases s
  rfl

/-! ### Coercion through a shape is the identity on values of that shape -/

theorem getFieldCI_append_of_some (pre kvs : List (String × Json)) (k : String) (v : Json)
    (h : getFieldCI kvs k = some v) : getFieldCI (pre ++ kvs) k = some v := by
  induction pre with
  | nil => simpa using h
  | cons e rest ih =>
    rw [List.cons_append, getFieldCI, ih]

theorem getFieldCI_none_of_not_hasKey (fs : List (String × Shape))
    (kvs : List (String × Json)) (k : String)
    (hsf : shapedFields fs kvs = true) (hnk : hasKeyCI fs k = false) :
    getFieldCI kvs k = none := by
  induction fs generalizing kvs with
  | nil =>
    cases kvs with
    | nil => rfl
    | cons e rest => simp [shapedFields] at hsf
  | cons f fsRest ih =>
    obtain ⟨n, sh⟩ := f
    cases kvs with
    | nil => simp [shapedFields] at hsf
    | cons e rest =>
      obtain ⟨n', v⟩ := e
      rw [shapedFields] at hsf
      simp only [Bool.and_eq_true, beq_iff_eq] at hsf
      obtain ⟨⟨hn, _⟩, hrest⟩ := hsf
      simp only [hasKeyCI, List.any_cons, Bool.or_eq_false_iff] at hnk
      obtain ⟨hn1, hn2⟩ := hnk
      rw [getFieldCI, ih rest hrest]
      · subst hn
        simp [hn1]
      · exact hn2

mutual
theorem unmarshalShape_shaped (sh : Shape) (v : Json)
    (hok : shapeOK sh = true) (hv : isShapedValue sh v = true) :
    unmarshalShape sh v = .ok v := by
  cases sh with
  | sstr => cases v <;> simp_all [isShapedValue, unmarshalShape]
  | sint => cases v <;> simp_all [isShapedValue, unmarshalShape]
  | sbool => cases v <;> simp_all [isShapedValue, unmarshalShape]
  | sobj fs =>
    cases v with
    | obj kvs =>
      rw [isShapedValue] at hv
      rw [shapeOK] at hok
      rw [unmarshalShape]
      have h := coerceFields_shaped fs kvs [] hok hv
      rw [List.nil_append] at h
      rw [h]
    | null => simp [isShapedValue] at hv
    | bool b => simp [isShapedValue] at hv
    | num i => simp [isShapedValue] at hv
    | str s => simp [isShapedValue] at hv

theorem coerceFields_shaped (fs : List (String × Shape)) (kvs pre : List (String × Json))
    (hok : namesOK fs = true) (hv : shapedFields fs kvs = true) :
    coerceFields fs (pre ++ kvs) = .ok kvs := by
  cases fs with
  | nil =>
    cases kvs with
    | nil => rw [coerceFields]
    | cons e rest => simp [shapedFields] at hv
  | cons f fsRest =>
    obtain ⟨n, sh⟩ := f
    cases kvs with
    | nil => simp [shapedFields] at hv
    | cons e kvsRest =>
      obtain ⟨n', v⟩ := e
      rw [shapedFields] at hv
      simp only [Bool.and_eq_true, beq_iff_eq] at hv
      obtain ⟨⟨hn, hsv⟩, hrest⟩ := hv
      subst hn
      rw [namesOK] at hok
      simp only [Bool.and_eq_true, Bool.not_eq_true'] at hok
      obtain ⟨⟨hnk, hshok⟩, hnrest⟩ := hok
      have hget : getFieldCI (pre ++ (n, v) :: kvsRest) n = some v := by
        apply getFieldCI_append_of_some
        rw [getFieldCI, getFieldCI_none_of_not_hasKey fsRest kvsRest n hrest hnk]
        simp [lowerEq]
      rw [coerceFields, hget]
      rw [show (match some v with
            | some jv => unmarshalShape sh jv
            | none => Except.ok (zeroOfShape sh)) = unmarshalShape sh v from rfl]
      rw [unmarshalShape_shaped sh v hshok hsv]
      have h2 : coerceFields fsRest ((pre ++ [(n, v)]) ++ kvsRest) = .ok kvsRest :=
        coerceFields_shaped fsRest kvsRest (pre ++ [(n, v)]) hnrest hrest
      rw [List.append_assoc, List.singleton_append] at h2
      rw [h2]
end

/-! ### Helper evaluation lemmas -/

theorem unmarshalNotification_envelope (tm ty : String) (ver : Int) (p : String) :
    unmarshalNotification (.obj
      [("time", .str tm), ("type", .str ty), ("version", .num ver),
       ("notification", .str p)])
    = .ok { time := tm, typ := ty, version := ver, data := .str p } := rfl

theorem any_key_false_of_resolve_none (reg : Registry) (t : String) (v : Int)
    (h : resolve reg t v = none) :
    reg.any (fun e2 => e2.1.1 == t && e2.1.2 == v) = false := by
  induction reg with
  | nil => rfl
  | cons e rest ih =>
    rw [resolve] at h
    by_cases hc : (e.1.1 == t && e.1.2 == v) = true
    · rw [if_pos hc] at h
      exact absurd h (by simp)
    · rw [if_neg hc] at h
      simp only [List.any_cons, ih h, Bool.or_false]
      exact Bool.not_eq_true _ ▸ (by simpa using hc)

/-! ### Claims -/

set_option maxRecDepth 8192 in
/-- C1 (counterexample): the Send→Decode round trip is NOT structurally
equal for every value of the exemplar's shape.  `Send`'s generic unmarshal
stores numbers as float64, so the int payload `{A: 9007199254740993}`
(2^53 + 1, a value of the exemplar shape `struct{A int}`) is rounded before
transmission and decodes to `{A: 9007199254740992}` ≠ the original. -/
theorem send_decode_roundtrip_counterexample :
    isShapedValue abShape bigPayload = true ∧
    send abReg ⟨"", "ab", 1, bigPayload⟩ "T0" (.ok ())
      = (.ok (), [(send abReg ⟨"", "ab", 1, bigPayload⟩ "T0" (.ok ())).2.1.headD ""], abReg) ∧
    decodeMessage abReg
        ⟨(send abReg ⟨"", "ab", 1, bigPayload⟩ "T0" (.ok ())).2.1.headD "", "rh-C"⟩
      = .ok { time := "T0", typ := "ab", version := 1,
              data := .obj [("A", .num 9007199254740992)] } ∧
    (Json.obj [("A", .num 9007199254740992)]) ≠ bigPayload := by
  refine ⟨rfl, rfl, rfl, ?_⟩
  intro h
  simp [bigPayload] at h

/-- C1 (amended): for every registered schema (type, version) with exemplar
shape S (field names case-insensitively distinct, as Go struct tags are)
and every value v of shape S that the float64 coercion of `Send`'s generic
unmarshal leaves unchanged (every integer leaf exactly representable in 53
bits), decoding the bytes produced by encoding (type, version, v) against
the same registry yields a Notification whose data field is structurally
equal to v (the decoded instance is freshly allocated by `reflect.New`; the
model compares values).  Integer leaves beyond 53 bits are rounded, as the
counterexample shows. -/
theorem send_decode_roundtrip (reg : Registry) (sch : Schema)
    (notification : Notification) (now h : String)
    (hres : resolve reg notification.typ notification.version = some sch)
    (hok : shapeOK sch.schema = true)
    (hv : isShapedValue sch.schema notification.data = true)
    (hf : f64Json notification.data = notification.data) :
    ∃ body,
      send reg notification now (.ok ()) = (.ok (), [body], reg) ∧
      decodeMessage reg ⟨body, h⟩ =
        .ok { time := now, typ := notification.typ,
              version := notification.version, data := notification.data } := by
  refine ⟨sendBody notification now notification.data, ?_, ?_⟩
  · simp only [send, hres, jsonUnmarshalGeneric, jsonUnmarshal_marshal,
      Option.map_some', hf]
  · have hu := unmarshalShape_shaped sch.schema notification.data hok hv
    simp only [sendBody, decodeMessage, jsonUnmarshal_marshal,
      unmarshalNotification_envelope, base64Decode_encode, hres, hu]

/-- Witness for C1 at the repository's own test data. -/
theorem send_decode_roundtrip_witness :
    ∃ body,
      send testReg ⟨"", "testing", 1, testData⟩ "T1" (.ok ()) = (.ok (), [body], testReg) ∧
      decodeMessage testReg ⟨body, "rh-A"⟩ =
        .ok { time := "T1", typ := "testing", version := 1, data := testData } :=
  send_decode_roundtrip testReg testSchema ⟨"", "testing", 1, testData⟩ "T1" "rh-A"
    (by rfl) (by rfl) (by rfl) (by rfl)

/-- C2: the "round-trip through the exemplar" in `Send` does NOT normalize
the payload to the registered shape.  `json.Unmarshal(nd, &sc)` writes into
an interface that holds a NON-POINTER exemplar, so encoding/json discards
the exemplar and stores the generic value of the payload: the transmitted
inner payload keeps the field `B` that the exemplar `struct{A int}` does
not have, whereas coercing through the exemplar's shape would have dropped
it. -/
theorem send_transmits_unnormalized :
    send abReg ⟨"", "ab", 1, abPayload⟩ "T0" (.ok ())
      = (.ok (), [(send abReg ⟨"", "ab", 1, abPayload⟩ "T0" (.ok ())).2.1.headD ""], abReg) ∧
    innerPayload ((send abReg ⟨"", "ab", 1, abPayload⟩ "T0" (.ok ())).2.1.headD "")
      = some abPayload ∧
    unmarshalShape abShape abPayload = .ok (.obj [("A", .num 1)]) ∧
    abPayload ≠ .obj [("A", .num 1)] := by
  refine ⟨rfl, rfl, rfl, ?_⟩
  intro h
  simp [abPayload] at h

/-- C3: the decode path is NOT total.  On an envelope that parses as valid
JSON but whose `notification` field is not a string, the naked type
assertion `notification.Data.(string)` panics (in both variants) instead of
returning a `DecodingError`. -/
theorem decode_nonstring_payload_panics :
    decodeMessage testReg badPayloadMsg = .panic ∧
    handleSync testReg [badPayloadMsg] (fun _ => .ok ()) = (.panic, [], testReg) ∧
    (handleChan testReg [badPayloadMsg] (fun _ => .ok ())).panicked = true :=
  ⟨rfl, rfl, rfl⟩

set_option maxRecDepth 8192 in
/-- C4 (counterexample): the channel variant's `handle` (part_000) does NOT
stop after the first message of a non-empty batch: on a two-message batch it
decodes, deletes and emits a result for BOTH messages in the one cycle,
contradicting "exactly one decode attempt, at most one delete, and exactly
one result". -/
theorem handleChan_processes_whole_batch :
    (handleChan testReg [msgA, msgB] (fun _ => .ok ())).emits
      = [.ok decodedA, .ok decodedA] ∧
    (handleChan testReg [msgA, msgB] (fun _ => .ok ())).deletes = ["rh-A", "rh-B"] :=
  ⟨rfl, rfl⟩

/-- C4 (amended): the synchronous `handle` (part_001) depends only on the
first message of the batch — its result and its delete calls are the same
as on the singleton batch, and it deletes at most one message. -/
theorem handleSync_first_message_only (reg : Registry) (m : Message)
    (rest : List Message) (deleteResp : String → Except GoErr Unit) :
    handleSync reg (m :: rest) deleteResp = handleSync reg [m] deleteResp ∧
    (handleSync reg (m :: rest) deleteResp).2.1.length ≤ 1 := by
  constructor
  · rfl
  · rw [handleSync]
    rcases decodeMessage reg m with _ | e | n
    · exact Nat.zero_le 1
    · exact Nat.zero_le 1
    · rcases deleteResp m.receiptHandle with e | u
      · exact Nat.le_refl 1
      · exact Nat.le_refl 1

/-- C5: whenever the per-message decode fails with an error (malformed
envelope, unknown schema, invalid base64, or shape mismatch), both `handle`
variants return/emit that error and never invoke `DeleteMessage`. -/
theorem decode_failure_no_delete (reg : Registry) (m : Message)
    (rest : List Message) (deleteResp : String → Except GoErr Unit) (e : GoErr)
    (hfail : decodeMessage reg m = .fail e) :
    handleSync reg (m :: rest) deleteResp = (.fail e, [], reg) ∧
    handleChan reg [m] deleteResp = ⟨[.error e], false, [], reg⟩ := by
  constructor
  · rw [handleSync, hfail]
  · rw [handleChan, hfail]
    rfl

/-- Witness for C5: an envelope naming an unregistered schema is returned
as an error and nothing is deleted, in both variants. -/
theorem decode_failure_no_delete_witness :
    handleSync testReg [unknownTypeMsg] (fun _ => .ok ())
      = (.fail (.schemaNotFound "nope" 1), [], testReg) ∧
    handleChan testReg [unknownTypeMsg] (fun _ => .ok ())
      = ⟨[.error (.schemaNotFound "nope" 1)], false, [], testReg⟩ :=
  decode_failure_no_delete testReg unknownTypeMsg [] (fun _ => .ok ())
    (.schemaNotFound "nope" 1) (by rfl)

/-- C6: when the decode succeeds but the subsequent `DeleteMessage` fails,
both `handle` variants surface the delete error (after having invoked the
delete exactly once) and do not deliver the decoded Notification. -/
theorem delete_failure_returned (reg : Registry) (m : Message)
    (rest : List Message) (deleteResp : String → Except GoErr Unit)
    (n : Notification) (e : GoErr)
    (hok : decodeMessage reg m = .ok n)
    (hdel : deleteResp m.receiptHandle = .error e) :
    handleSync reg (m :: rest) deleteResp = (.fail e, [m.receiptHandle], reg) ∧
    handleChan reg [m] deleteResp = ⟨[.error e], false, [m.receiptHandle], reg⟩ := by
  constructor
  · rw [handleSync, hok, hdel]
  · rw [handleChan, hok, hdel]
    rfl

set_option maxRecDepth 8192 in
/-- Witness for C6 at a failing transport delete. -/
theorem delete_failure_returned_witness :
    handleSync testReg [msgA] (fun _ => .error (.transport "boom"))
      = (.fail (.transport "boom"), ["rh-A"], testReg) ∧
    handleChan testReg [msgA] (fun _ => .error (.transport "boom"))
      = ⟨[.error (.transport "boom")], false, ["rh-A"], testReg⟩ :=
  delete_failure_returned testReg msgA [] (fun _ => .error (.transport "boom"))
    decodedA (.transport "boom") (by rfl) rfl

/-- C7: `Send` on a (type, version) pair with no registered schema fails
with the schema-not-found error and never invokes the transport's
`SendMessage`; in particular (second conjunct) `Send` on a fresh facade,
before any `AddSchema`, always fails without transport I/O. -/
theorem send_without_schema_fails (reg : Registry) (notification : Notification)
    (now : String) (sendResp : Except GoErr Unit)
    (hres : resolve reg notification.typ notification.version = none) :
    send reg notification now sendResp
      = (.error (.schemaNotFound notification.typ notification.version), [], reg) ∧
    send [] notification now sendResp
      = (.error (.schemaNotFound notification.typ notification.version), [], []) := by
  constructor
  · rw [send, hres]
  · rw [send]
    rfl

/-- Witness for C7. -/
theorem send_without_schema_fails_witness :
    send testReg ⟨"", "missing", 1, .null⟩ "T0" (.ok ())
      = (.error (.schemaNotFound "missing" 1), [], testReg) ∧
    send [] ⟨"", "missing", 1, .null⟩ "T0" (.ok ())
      = (.error (.schemaNotFound "missing" 1), [], []) :=
  send_without_schema_fails testReg ⟨"", "missing", 1, .null⟩ "T0" (.ok ()) (by rfl)

/-- C8: registering the same (type, version) twice fails with the
duplicate-schema error and leaves the registry exactly as it was after the
first registration, while registering the same type at a different (still
free) version succeeds. -/
theorem addSchema_duplicate (reg : Registry) (s : Schema) (v' : Int)
    (hfresh : resolve reg s.typ s.version = none)
    (hfresh2 : resolve reg s.typ v' = none)
    (hne : v' ≠ s.version) :
    addSchema reg s = (.ok (), ((s.typ, s.version), s) :: reg) ∧
    addSchema (((s.typ, s.version), s) :: reg) s
      = (.error (.duplicateSchema s.typ s.version), ((s.typ, s.version), s) :: reg) ∧
    (addSchema (((s.typ, s.version), s) :: reg) { s with version := v' }).1 = .ok () := by
  refine ⟨?_, ?_, ?_⟩
  · rw [addSchema, hfresh]
  · rw [addSchema]
    rw [show resolve (((s.typ, s.version), s) :: reg) s.typ s.version = some s from by
      rw [resolve]; simp]
  · have hr : resolve (((s.typ, s.version), s) :: reg) s.typ v' = none := by
      rw [resolve]
      rw [if_neg ?_]
      · exact hfresh2
      · intro hcond
        simp only [Bool.and_eq_true, beq_iff_eq] at hcond
        exact hne hcond.2.symm
    rw [addSchema]
    dsimp only
    rw [hr]

/-- Witness for C8 on a fresh registry. -/
theorem addSchema_duplicate_witness :
    addSchema [] testSchema = (.ok (), [(("testing", 1), testSchema)]) ∧
    addSchema [(("testing", 1), testSchema)] testSchema
      = (.error (.duplicateSchema "testing" 1), [(("testing", 1), testSchema)]) ∧
    (addSchema [(("testing", 1), testSchema)] { testSchema with version := 2 }).1 = .ok () :=
  addSchema_duplicate [] testSchema 2 (by rfl) (by rfl) (by decide)

/-- C9: the registry invariant is preserved by every operation.  `AddSchema`
keeps the (type, version) keys duplicate-free and never changes an existing
binding; `Send` and both `handle` variants return the registry they were
given, unchanged. -/
theorem registry_invariant (reg : Registry) (s : Schema)
    (notification : Notification) (now : String) (sendResp : Except GoErr Unit)
    (msgs : List Message) (deleteResp : String → Except GoErr Unit)
    (hnd : noDupKeys reg = true) :
    noDupKeys (addSchema reg s).2 = true ∧
    (∀ t v sch, resolve reg t v = some sch → resolve (addSchema reg s).2 t v = some sch) ∧
    (send reg notification now sendResp).2.2 = reg ∧
    (handleSync reg msgs deleteResp).2.2 = reg ∧
    (handleChan reg msgs deleteResp).schemas = reg := by
  refine ⟨?_, ?_, ?_, ?_, ?_⟩
  · rcases hr : resolve reg s.typ s.version with _ | sch
    · rw [addSchema, hr]
      rw [noDupKeys]
      rw [any_key_false_of_resolve_none reg s.typ s.version hr]
      simp [hnd]
    · rw [addSchema, hr]
      exact hnd
  · intro t v sch hres
    rcases hr : resolve reg s.typ s.version with _ | sch'
    · rw [addSchema, hr]
      dsimp only
      rw [resolve]
      rw [if_neg ?_]
      · exact hres
      · intro hcond
        simp only [Bool.and_eq_true, beq_iff_eq] at hcond
        rw [hcond.1, hcond.2] at hr
        rw [hr] at hres
        exact Option.noConfusion hres
    · rw [addSchema, hr]
      exact hres
  · rw [send]
    repeat' split
    all_goals rfl
  · rw [handleSync.eq_def]
    split
    · rfl
    · split
      · rfl
      · rfl
      · split <;> rfl
  · rw [handleChan.eq_def]
    split
    · rfl
    · split
      · rfl
      · rfl
      · split <;> rfl

set_option maxRecDepth 8192 in
/-- Witness for C9 at concrete inputs. -/
theorem registry_invariant_witness :
    noDupKeys (addSchema testReg v2Schema).2 = true ∧
    resolve (addSchema testReg v2Schema).2 "testing" 1 = some testSchema ∧
    (send testReg ⟨"", "testing", 1, testData⟩ "T0" (.ok ())).2.2 = testReg ∧
    (handleSync testReg [msgA] (fun _ => .ok ())).2.2 = testReg ∧
    (handleChan testReg [msgA] (fun _ => .ok ())).schemas = testReg := by
  have h := registry_invariant testReg v2Schema ⟨"", "testing", 1, testData⟩ "T0"
    (.ok ()) [msgA] (fun _ => .ok ()) (by rfl)
  exact ⟨h.1, h.2.1 "testing" 1 testSchema (by rfl), h.2.2.1, h.2.2.2.1, h.2.2.2.2⟩

/-- C10: on a single-message batch the two `handle` variants agree: the
channel variant emits exactly the value the synchronous variant returns
(a notification or an error), panics exactly when it panics, performs the
same deletes, and leaves the same registry. -/
theorem handle_variants_agree (reg : Registry) (m : Message)
    (deleteResp : String → Except GoErr Unit) :
    handleChan reg [m] deleteResp =
      (match handleSync reg [m] deleteResp with
       | (.ok n, dels, r) => ⟨[.ok n], false, dels, r⟩
       | (.fail e, dels, r) => ⟨[.error e], false, dels, r⟩
       | (.panic, dels, r) => ⟨[], true, dels, r⟩) := by
  rcases hd : decodeMessage reg m with _ | e | n
  · rw [handleChan, handleSync, hd]
  · rw [handleChan, handleSync, hd]
    rfl
  · rcases hdel : deleteResp m.receiptHandle with e | u
    · rw [handleChan, handleSync, hd, hdel]
      rfl
    · rw [handleChan, handleSync, hd, hdel]
      rfl
